import Mathlib

/-!
Verification of the fanout/broadcast sink (`src/lib/vector-core/src/fanout.rs`).

The Rust component is embedded shallowly:

* `ComponentKey` is modelled as `Nat` (an opaque identifier with equality).
* The event payload (`EventArray`) is modelled as `Nat` (an opaque, cheaply
  clonable value; cloning is value identity).
* A `GenericEventSink` is modelled by `SinkSpec`: the response it gives to each
  of the four protocol calls.  Within one fanout operation each sink is polled
  at most once, so a fixed per-phase response is a faithful abstraction of an
  arbitrary downstream sink's behaviour during that operation.
* `Poll<Result<(), ()>>` is modelled by `PollR` / `PollResult`.
* Rust panics are modelled by `Option` (`none` = panic).
* `tokio::spawn(... close ...)` in `Fanout::remove` is modelled by recording
  the removed component's id in the `closes` field of the state.

The index-based `while` loops of the source (`poll_ready`, `poll_sinks`,
`start_send`) only ever read the slot at the current index `i`, and
`handle_sink_error` only removes the slot at that same index, so the slots at
indices `< i` are never revisited.  Each loop is therefore embedded as a
structural recursion over the pair (`done`, `rest`) with the invariant
`sinks = done ++ rest` and `i = done.length`; the `sinks.len() == 1` test of
`handle_sink_error` becomes `done.length + rest.length == 1`, and
`sinks.remove(i)` at the current index becomes dropping the head of `rest`.
-/

namespace VectorFanout

/-- Response of a single sink to one poll-style protocol call:
`Poll::Ready(Ok(()))`, `Poll::Pending`, or `Poll::Ready(Err(()))`. -/
inductive PollR where
  | ok
  | pending
  | err
deriving DecidableEq

/-- Overall result of a fanout protocol call. -/
inductive PollResult where
  | readyOk
  | readyErr
  | pending
deriving DecidableEq

/-- Abstract behaviour of one `GenericEventSink`: the response it gives to each
protocol call made on it during a single fanout operation (`readyR` for
`poll_ready`, `sendOk` for `start_send` where `true` means `Ok(())`, `flushR`
for `poll_flush`, `closeR` for `poll_close`). -/
structure SinkSpec where
  readyR : PollR
  sendOk : Bool
  flushR : PollR
  closeR : PollR
deriving DecidableEq

/-- One entry of `Fanout::sinks`: a `(ComponentKey, Option<GenericEventSink>)`
pair. -/
structure Slot where
  id : Nat
  sink : Option SinkSpec
deriving DecidableEq

/-- The `Fanout` state: the slot sequence `sinks`, the readiness cursor `i`,
and `closes`, the ids of handles scheduled for asynchronous best-effort close
by `Fanout::remove` (the `tokio::spawn(async move { removed.close().await })`
call). -/
structure Fanout where
  sinks : List Slot
  i : Nat
  closes : List Nat
deriving DecidableEq

/-- `ControlMessage`: `Add(id, sink)`, `Remove(id)`, `Replace(id, sink)`. -/
inductive ControlMessage where
  | add (id : Nat) (sink : SinkSpec)
  | remove (id : Nat)
  | replace (id : Nat) (sink : Option SinkSpec)
deriving DecidableEq

/-- `Fanout::handle_sink_error`: if there is exactly one sink the error is
propagated (`Err(())`, modelled as `none`); otherwise the sink at `index` is
removed and the operation continues (`Ok(())`). -/
def handleSinkError (sinks : List Slot) (index : Nat) : Option (List Slot) :=
  if sinks.length == 1 then none else some (sinks.eraseIdx index)

/-- The `while` loop of `Fanout::poll_ready`.  `done` holds the slots at
indices below the cursor `this.i` (never revisited), `rest` those from the
cursor on, so the live state is `sinks = done ++ rest`, `this.i = done.length`.
Returns `(poll result, final sinks, final cursor, ids of slots examined)`.
The `err` test `done.length + (s :: rest).length == 1` is
`handleSinkError (done ++ s :: rest) done.length` spelled out: on `none` the
`?` operator returns `Err(())` with the state unchanged, on `some` the slot at
the cursor is removed (`eraseIdx (done ++ s :: rest) done.length = done ++
rest`) and the loop continues at the same index. -/
def readyLoop : List Slot → List Slot → List Nat →
    PollResult × List Slot × Nat × List Nat
  | done, [], tr => (.readyOk, done, 0, tr)
  | done, s :: rest, tr =>
    match s.sink with
    | none => (.pending, done ++ s :: rest, done.length, tr ++ [s.id])
    | some sk =>
      match sk.readyR with
      | .pending => (.pending, done ++ s :: rest, done.length, tr ++ [s.id])
      | .ok => readyLoop (done ++ [s]) rest (tr ++ [s.id])
      | .err =>
        if done.length + (s :: rest).length == 1 then
          (.readyErr, done ++ s :: rest, done.length, tr ++ [s.id])
        else
          readyLoop done rest (tr ++ [s.id])

/-- `<Fanout as Sink>::poll_ready` (with the control queue already drained;
`pollReadyFull` includes the drain).  The sweep starts at the saved cursor
`f.i`; on completing the whole sequence the cursor is reset to `0` and
`Ready(Ok(()))` is returned. -/
def pollReady (f : Fanout) : PollResult × Fanout × List Nat :=
  match readyLoop (f.sinks.take f.i) (f.sinks.drop f.i) [] with
  | (r, sinks', i', tr) => (r, { f with sinks := sinks', i := i' }, tr)

/-- Result of the `Fanout::poll_sinks` loop: whether an error escalated
(`Err(())` returned through `?`), the final slot sequence, whether any polled
sink returned `Poll::Pending` (the sticky `poll_result`), and the ids of the
present sinks polled, in order. -/
structure SweepRes where
  escalated : Bool
  sinks : List Slot
  pend : Bool
  tr : List Nat
deriving DecidableEq

/-- The `while` loop of `Fanout::poll_sinks`, parameterised by the protocol
call `resp` made on each present sink (`poll_flush` or `poll_close`).  Same
`done`/`rest` embedding of the index loop as `readyLoop`; the local index `i`
is `done.length`.  Absent handles are skipped.  A `Pending` response sets the
sticky `pend` flag but the sweep continues. -/
def sweep (resp : SinkSpec → PollR) :
    List Slot → List Slot → Bool → List Nat → SweepRes
  | done, [], pend, tr => ⟨false, done, pend, tr⟩
  | done, s :: rest, pend, tr =>
    match s.sink with
    | none => sweep resp (done ++ [s]) rest pend tr
    | some sk =>
      match resp sk with
      | .pending => sweep resp (done ++ [s]) rest true (tr ++ [s.id])
      | .ok => sweep resp (done ++ [s]) rest pend (tr ++ [s.id])
      | .err =>
        if done.length + (s :: rest).length == 1 then
          ⟨true, done ++ s :: rest, pend, tr ++ [s.id]⟩
        else
          sweep resp done rest pend (tr ++ [s.id])

/-- `Fanout::poll_sinks` (with the control queue already drained): sweep the
whole slot sequence from index 0 and aggregate the results. -/
def pollSinks (resp : SinkSpec → PollR) (f : Fanout) :
    PollResult × Fanout × List Nat :=
  let r := sweep resp [] f.sinks false []
  (if r.escalated then .readyErr else if r.pend then .pending else .readyOk,
   { f with sinks := r.sinks }, r.tr)

/-- `<Fanout as Sink>::poll_flush`. -/
def pollFlush (f : Fanout) : PollResult × Fanout × List Nat :=
  pollSinks (fun sk => sk.flushR) f

/-- `<Fanout as Sink>::poll_close`. -/
def pollClose (f : Fanout) : PollResult × Fanout × List Nat :=
  pollSinks (fun sk => sk.closeR) f

/-- The first `while` loop of `Fanout::start_send`, which starts at index 1.
`pool` is the number of clones left in the `items` vector (`vec![item; n]`; all
clones are equal to `item`, so only the count matters); `items.pop().unwrap()`
panics (`none`) when the pool is empty.  The trace records `(id, item)` for
each successful delivery.  The returned `Bool` is `true` when
`handle_sink_error` escalated (`Err(())`). -/
def sendLoop (item : Nat) : List Slot → List Slot → Nat → List (Nat × Nat) →
    Option (Bool × List Slot × Nat × List (Nat × Nat))
  | done, [], pool, tr => some (false, done, pool, tr)
  | done, s :: rest, pool, tr =>
    match s.sink with
    | none => sendLoop item (done ++ [s]) rest pool tr
    | some sk =>
      match pool with
      | 0 => none
      | pool' + 1 =>
        if sk.sendOk then
          sendLoop item (done ++ [s]) rest pool' (tr ++ [(s.id, item)])
        else if done.length + (s :: rest).length == 1 then
          some (true, done ++ s :: rest, pool', tr)
        else
          sendLoop item done rest pool' tr

/-- `<Fanout as Sink>::start_send`: the loop over indices `1..` first, then the
`self.sinks.first_mut()` block.  Returns `none` on an `unwrap` panic, otherwise
`some (ok, state, deliveries)` where `ok = false` models `Err(())`. -/
def startSend (f : Fanout) (item : Nat) :
    Option (Bool × Fanout × List (Nat × Nat)) :=
  match sendLoop item (f.sinks.take 1) (f.sinks.drop 1) f.sinks.length [] with
  | none => none
  | some (true, sinks', _, tr) => some (false, { f with sinks := sinks' }, tr)
  | some (false, sinks', pool, tr) =>
    match sinks' with
    | [] => some (true, { f with sinks := ([] : List Slot) }, tr)
    | s :: rest =>
      match s.sink with
      | none => some (true, { f with sinks := s :: rest }, tr)
      | some sk =>
        match pool with
        | 0 => none
        | _ + 1 =>
          if sk.sendOk then
            some (true, { f with sinks := s :: rest }, tr ++ [(s.id, item)])
          else if (s :: rest).length == 1 then
            some (false, { f with sinks := s :: rest }, tr)
          else
            some (true, { f with sinks := rest }, tr)

/-- `self.sinks.iter().position(|(n, _)| n == id)` together with
`self.sinks.remove(i)`: the index of the first slot with the given id, the
removed slot, and the remaining sequence; `none` when no slot matches. -/
def removeFirst (id : Nat) : List Slot → Option (Nat × Slot × List Slot)
  | [] => none
  | s :: rest =>
    if s.id == id then some (0, s, rest)
    else (removeFirst id rest).map (fun p => (p.1 + 1, p.2.1, s :: p.2.2))

/-- `self.sinks.iter_mut().find(|(n, _)| n == id)` with `*existing = sink`:
replace the handle of the first slot with the given id; `none` when no slot
matches. -/
def replaceFirst (id : Nat) (sk : Option SinkSpec) :
    List Slot → Option (List Slot)
  | [] => none
  | s :: rest =>
    if s.id == id then some ({ s with sink := sk } :: rest)
    else (replaceFirst id sk rest).map (fun l => s :: l)

/-- Application of one control message (`Fanout::add` / `Fanout::remove` /
`Fanout::replace`); `none` models the panic (`assert!` / `expect` /
`panic!`).  `remove` records the removed id in `closes` when its handle was
present (the spawned asynchronous close) and decrements the cursor when
`self.i > i`. -/
def applyMsg (f : Fanout) : ControlMessage → Option Fanout
  | .add id sk =>
    if f.sinks.any (fun s => s.id == id) then none
    else some { f with sinks := f.sinks ++ [⟨id, some sk⟩] }
  | .remove id =>
    match removeFirst id f.sinks with
    | none => none
    | some (j, s, rest) =>
      some { sinks := rest,
             i := if f.i > j then f.i - 1 else f.i,
             closes := f.closes ++
               (match s.sink with | some _ => [s.id] | none => []) }
  | .replace id sk =>
    match replaceFirst id sk f.sinks with
    | none => none
    | some sinks' => some { f with sinks := sinks' }

/-- `Fanout::process_control_messages`: drain and apply every queued control
message, in order; `none` when one of them panics. -/
def applyMsgs (f : Fanout) (msgs : List ControlMessage) : Option Fanout :=
  msgs.foldl (fun acc m => acc.bind (fun g => applyMsg g m)) (some f)

/-- `poll_ready` including the initial `process_control_messages` drain. -/
def pollReadyFull (f : Fanout) (msgs : List ControlMessage) :
    Option (PollResult × Fanout × List Nat) :=
  (applyMsgs f msgs).map pollReady

/-- `poll_flush` including the initial `process_control_messages` drain. -/
def pollFlushFull (f : Fanout) (msgs : List ControlMessage) :
    Option (PollResult × Fanout × List Nat) :=
  (applyMsgs f msgs).map pollFlush

/-- `poll_close` including the initial `process_control_messages` drain. -/
def pollCloseFull (f : Fanout) (msgs : List ControlMessage) :
    Option (PollResult × Fanout × List Nat) :=
  (applyMsgs f msgs).map pollClose

/-- Ids of the slots holding a present handle, in slot order. -/
def presentIds (l : List Slot) : List Nat :=
  l.filterMap (fun s => s.sink.map (fun _ => s.id))

/-- Whether some present sink in `l` answers `Pending` to the call `resp`. -/
def anyPendingR (resp : SinkSpec → PollR) (l : List Slot) : Bool :=
  l.any (fun s =>
    match s.sink with | some sk => resp sk == .pending | none => false)

/-- A sink whose every protocol call succeeds immediately. -/
def sAllOk : SinkSpec := ⟨.ok, true, .ok, .ok⟩

/-- A sink that is ready but fails `poll_flush`. -/
def sFlushErr : SinkSpec := ⟨.ok, true, .err, .ok⟩

/-- A sink whose readiness check is pending but whose flush succeeds. -/
def sReadyPend : SinkSpec := ⟨.pending, true, .ok, .ok⟩

end VectorFanout

namespace VectorFanout

theorem pollR_ok_beq_pending : (PollR.ok == PollR.pending) = false := by decide

theorem pollR_pending_beq_pending : (PollR.pending == PollR.pending) = true := by
  decide

theorem presentIds_nil : presentIds [] = [] := rfl

theorem presentIds_cons (s : Slot) (l : List Slot) :
    presentIds (s :: l) =
      (match s.sink with | some _ => [s.id] | none => []) ++ presentIds l := by
  cases h : s.sink <;> simp [presentIds, h]

theorem presentIds_append (l₁ l₂ : List Slot) :
    presentIds (l₁ ++ l₂) = presentIds l₁ ++ presentIds l₂ := by
  simp [presentIds]

theorem anyPendingR_nil (resp : SinkSpec → PollR) :
    anyPendingR resp [] = false := rfl

theorem anyPendingR_cons (resp : SinkSpec → PollR) (s : Slot) (l : List Slot) :
    anyPendingR resp (s :: l) =
      ((match s.sink with | some sk => resp sk == .pending | none => false)
        || anyPendingR resp l) := by
  simp [anyPendingR]

theorem anyPendingR_append (resp : SinkSpec → PollR) (l₁ l₂ : List Slot) :
    anyPendingR resp (l₁ ++ l₂) =
      (anyPendingR resp l₁ || anyPendingR resp l₂) := by
  simp [anyPendingR, List.any_append]

theorem readyLoop_all_ready (rest : List Slot) : ∀ (done : List Slot)
    (tr : List Nat),
    (∀ s ∈ rest, ∃ u, s.sink = some u ∧ u.readyR = .ok) →
    readyLoop done rest tr = (.readyOk, done ++ rest, 0, tr ++ rest.map Slot.id) := by
  induction rest with
  | nil => intro done tr _; simp [readyLoop]
  | cons s rest ih =>
    intro done tr h
    obtain ⟨u, hu, hr⟩ := h s (by simp)
    rw [readyLoop]
    simp only [hu, hr]
    rw [ih (done ++ [s]) (tr ++ [s.id]) (fun t ht => h t (by simp [ht]))]
    simp

theorem readyLoop_stops (pre : List Slot) : ∀ (done : List Slot) (tr : List Nat)
    (s : Slot) (post : List Slot),
    (∀ t ∈ pre, ∃ u, t.sink = some u ∧ u.readyR = .ok) →
    (s.sink = none ∨ ∃ sk, s.sink = some sk ∧ sk.readyR = .pending) →
    readyLoop done (pre ++ s :: post) tr =
      (.pending, done ++ pre ++ s :: post, (done ++ pre).length,
        tr ++ pre.map Slot.id ++ [s.id]) := by
  induction pre with
  | nil =>
    intro done tr s post _ hs
    rw [List.nil_append, readyLoop]
    rcases hs with hn | ⟨sk, hsk, hp⟩
    · simp [hn]
    · simp [hsk, hp]
  | cons t pre ih =>
    intro done tr s post h hs
    obtain ⟨u, hu, hr⟩ := h t (by simp)
    rw [List.cons_append, readyLoop]
    simp only [hu, hr]
    rw [ih (done ++ [t]) (tr ++ [t.id]) s post (fun x hx => h x (by simp [hx])) hs]
    simp

theorem sweep_no_err (resp : SinkSpec → PollR) (rest : List Slot) :
    ∀ (done : List Slot) (pend : Bool) (tr : List Nat),
    (∀ s ∈ rest, ∀ u, s.sink = some u → resp u ≠ .err) →
    sweep resp done rest pend tr =
      ⟨false, done ++ rest, pend || anyPendingR resp rest,
        tr ++ presentIds rest⟩ := by
  induction rest with
  | nil => intro done pend tr _; simp [sweep, presentIds, anyPendingR]
  | cons s rest ih =>
    intro done pend tr h
    rw [sweep]
    cases hu : s.sink with
    | none =>
      simp only []
      rw [ih (done ++ [s]) pend tr (fun t ht => h t (by simp [ht]))]
      simp [anyPendingR_cons, presentIds_cons, hu]
    | some u =>
      have hne := h s (by simp) u hu
      cases hr : resp u with
      | err => exact absurd hr hne
      | ok =>
        simp only []
        rw [ih (done ++ [s]) pend (tr ++ [s.id]) (fun t ht => h t (by simp [ht]))]
        simp [anyPendingR_cons, presentIds_cons, hu, hr, pollR_ok_beq_pending]
      | pending =>
        simp only []
        rw [ih (done ++ [s]) true (tr ++ [s.id]) (fun t ht => h t (by simp [ht]))]
        simp [anyPendingR_cons, presentIds_cons, hu, hr, pollR_pending_beq_pending]

theorem sweep_all_err (resp : SinkSpec → PollR) (rest : List Slot) :
    ∀ (pend : Bool) (tr : List Nat), rest ≠ [] →
    (∀ s ∈ rest, ∃ u, s.sink = some u ∧ resp u = .err) →
    (sweep resp [] rest pend tr).escalated = true := by
  induction rest with
  | nil => intro pend tr h _; exact absurd rfl h
  | cons s rest ih =>
    intro pend tr _ h
    obtain ⟨u, hu, hr⟩ := h s (by simp)
    rw [sweep]
    simp only [hu, hr]
    cases rest with
    | nil => simp
    | cons t rest' =>
      have hc : (([] : List Slot).length + (s :: t :: rest').length == 1) = false := by
        simp
      rw [hc]
      simp only [Bool.false_eq_true, if_false]
      exact ih pend (tr ++ [s.id]) (by simp) (fun x hx => h x (by simp [hx]))

end VectorFanout

namespace VectorFanout

theorem sendLoop_all_accept (item : Nat) (rest : List Slot) :
    ∀ (done : List Slot) (pool : Nat) (tr : List (Nat × Nat)),
    (∀ s ∈ rest, ∀ u, s.sink = some u → u.sendOk = true) →
    (presentIds rest).length ≤ pool →
    sendLoop item done rest pool tr =
      some (false, done ++ rest, pool - (presentIds rest).length,
        tr ++ (presentIds rest).map (fun n => (n, item))) := by
  induction rest with
  | nil => intro done pool tr _ _; simp [sendLoop, presentIds]
  | cons s rest ih =>
    intro done pool tr h hp
    rw [sendLoop]
    cases hu : s.sink with
    | none =>
      simp only []
      rw [ih (done ++ [s]) pool tr (fun t ht => h t (by simp [ht]))
        (by simpa [presentIds_cons, hu] using hp)]
      simp [presentIds_cons, hu]
    | some u =>
      have hok := h s (by simp) u hu
      rw [presentIds_cons, hu] at hp
      simp only [List.singleton_append, List.length_cons] at hp
      cases pool with
      | zero => exact absurd hp (by simp)
      | succ pool' =>
        simp only [hok, if_true]
        rw [ih (done ++ [s]) pool' (tr ++ [(s.id, item)])
          (fun t ht => h t (by simp [ht])) (Nat.le_of_succ_le_succ hp)]
        simp [presentIds_cons, hu, Nat.succ_sub_succ]

theorem removeFirst_eq_some (id : Nat) (l : List Slot) :
    ∀ (j : Nat) (s : Slot) (rest : List Slot),
    removeFirst id l = some (j, s, rest) →
    s.id = id ∧ rest = l.eraseIdx j ∧ l[j]? = some s := by
  induction l with
  | nil => intro j s rest h; simp [removeFirst] at h
  | cons t l ih =>
    intro j s rest h
    rw [removeFirst] at h
    by_cases ht : t.id = id
    · rw [if_pos (by simp [ht])] at h
      obtain ⟨rfl, rfl, rfl⟩ : j = 0 ∧ s = t ∧ rest = l := by
        simpa [and_assoc, eq_comm] using h
      exact ⟨ht, by simp [List.eraseIdx], by simp⟩
    · rw [if_neg (by simp [ht])] at h
      cases hr : removeFirst id l with
      | none => rw [hr] at h; simp at h
      | some p =>
        rw [hr] at h
        simp only [Option.map_some', Option.some.injEq] at h
        obtain ⟨rfl, rfl, rfl⟩ : j = p.1 + 1 ∧ s = p.2.1 ∧ rest = t :: p.2.2 := by
          simpa [and_assoc, eq_comm] using h
        obtain ⟨h1, h2, h3⟩ := ih p.1 p.2.1 p.2.2 (by simpa using hr)
        exact ⟨h1, by simp [List.eraseIdx, h2], by simpa using h3⟩

theorem removeFirst_eq_none_iff (id : Nat) (l : List Slot) :
    removeFirst id l = none ↔ ∀ t ∈ l, t.id ≠ id := by
  induction l with
  | nil => simp [removeFirst]
  | cons t l ih =>
    rw [removeFirst]
    by_cases ht : t.id = id
    · simp [ht]
    · rw [if_neg (by simp [ht])]
      cases hr : removeFirst id l with
      | none => simpa [ht, hr] using ih
      | some p =>
        simp only [Option.map_some']
        constructor
        · intro h; simp at h
        · intro h
          exact absurd (ih.mpr (fun x hx => h x (by simp [hx]))) (by simp [hr])

theorem replaceFirst_eq_none_iff (id : Nat) (sk : Option SinkSpec)
    (l : List Slot) :
    replaceFirst id sk l = none ↔ ∀ t ∈ l, t.id ≠ id := by
  induction l with
  | nil => simp [replaceFirst]
  | cons t l ih =>
    rw [replaceFirst]
    by_cases ht : t.id = id
    · simp [ht]
    · rw [if_neg (by simp [ht])]
      cases hr : replaceFirst id sk l with
      | none => simpa [ht, hr] using ih
      | some p =>
        simp only [Option.map_some']
        constructor
        · intro h; simp at h
        · intro h
          exact absurd (ih.mpr (fun x hx => h x (by simp [hx]))) (by simp [hr])

end VectorFanout

namespace VectorFanout

theorem presentIds_length_le (l : List Slot) :
    (presentIds l).length ≤ l.length :=
  List.length_filterMap_le _ _

/-- C5: with zero slots registered (control queue already drained),
`poll_ready` returns ready/success (resetting the cursor to 0), `start_send`
accepts the item, delivers it nowhere (discards it) and returns success, and
`poll_flush` and `poll_close` return ready/success. -/
theorem c5_zero_outputs (ci : Nat) (cl : List Nat) (x : Nat) :
    pollReady ⟨[], ci, cl⟩ = (.readyOk, ⟨[], 0, cl⟩, [])
    ∧ startSend ⟨[], ci, cl⟩ x = some (true, ⟨[], ci, cl⟩, [])
    ∧ pollFlush ⟨[], ci, cl⟩ = (.readyOk, ⟨[], ci, cl⟩, [])
    ∧ pollClose ⟨[], ci, cl⟩ = (.readyOk, ⟨[], ci, cl⟩, []) := by
  refine ⟨?_, ?_, ?_, ?_⟩ <;>
    simp [pollReady, startSend, pollFlush, pollClose, pollSinks, readyLoop,
      sendLoop, sweep]

/-- C1 counterexample: in a two-slot state with both handles present and
accepting, `start_send` delivers to slot 1 (id 2) first and to slot 0 (id 1)
last, so the delivery order is not "index 0 first, then 1" as the claim
states. -/
theorem c1_send_order_ce :
    startSend ⟨[⟨1, some sAllOk⟩, ⟨2, some sAllOk⟩], 0, []⟩ 5 =
      some (true, ⟨[⟨1, some sAllOk⟩, ⟨2, some sAllOk⟩], 0, []⟩,
        [(2, 5), (1, 5)])
    ∧ ([(2, 5), (1, 5)] : List (Nat × Nat)) ≠ [(1, 5), (2, 5)] := by decide

/-- C1 (amended): when every present handle accepts the item, `start_send`
delivers exactly one copy of the submitted item, unmodified, to every slot
that holds a present handle, skipping absent-handle slots, and succeeds; the
slots are visited in slot order starting from index 1, with slot 0 visited
last (not index 0 first).  The slot sequence is unchanged. -/
theorem c1_send_copies (f : Fanout) (item : Nat)
    (hok : ∀ s ∈ f.sinks, ∀ u, s.sink = some u → u.sendOk = true) :
    startSend f item =
      some (true, f, (presentIds (f.sinks.drop 1 ++ f.sinks.take 1)).map
        (fun n => (n, item))) := by
  obtain ⟨sks, ci, cls⟩ := f
  cases sks with
  | nil => simp [startSend, sendLoop, presentIds]
  | cons s0 rest =>
    have htail : ∀ s ∈ rest, ∀ u, s.sink = some u → u.sendOk = true :=
      fun s hs u hu => hok s (by simp [hs]) u hu
    rw [startSend]
    simp only [List.take_succ_cons, List.take_zero, List.drop_succ_cons,
      List.drop_zero, List.length_cons]
    rw [sendLoop_all_accept item rest [s0] (rest.length + 1) [] htail
      (le_trans (presentIds_length_le rest) (Nat.le_succ _))]
    simp only [List.singleton_append, List.nil_append]
    cases hs0 : s0.sink with
    | none =>
      simp [presentIds_append, presentIds_cons, presentIds, hs0]
    | some u =>
      have hu : u.sendOk = true := hok s0 (by simp) u hs0
      have hsub : rest.length + 1 - (presentIds rest).length =
          (rest.length - (presentIds rest).length) + 1 := by
        have := presentIds_length_le rest; omega
      rw [hsub]
      simp [hu, hs0, presentIds_append, presentIds_cons, presentIds]

/-- C1 witness: the amended theorem applied to a concrete three-slot state
(one absent handle): the present slots at indices 1.. receive the item first,
slot 0 last, and the absent slot is skipped. -/
theorem c1_send_copies_witness :
    startSend ⟨[⟨1, some sAllOk⟩, ⟨3, none⟩, ⟨2, some sAllOk⟩], 0, []⟩ 7 =
      some (true, ⟨[⟨1, some sAllOk⟩, ⟨3, none⟩, ⟨2, some sAllOk⟩], 0, []⟩,
        [(2, 7), (1, 7)]) := by
  have h := c1_send_copies ⟨[⟨1, some sAllOk⟩, ⟨3, none⟩, ⟨2, some sAllOk⟩], 0, []⟩ 7
    (by intro s hs u hu
        fin_cases hs
        · injection hu with h2; subst h2; rfl
        · exact Option.noConfusion hu
        · injection hu with h2; subst h2; rfl)
  rw [h]; rfl

/-- C4 counterexample: with two slots and the cursor at index 1, removing the
slot with id 2 — whose index 1 is *at* the cursor's position — leaves the
cursor at 1 instead of decrementing it to 0 as the claim states (the code
decrements only when the removed index is strictly below the cursor). -/
theorem c4_remove_at_cursor_ce :
    removeFirst 2 [⟨1, some sAllOk⟩, ⟨2, some sAllOk⟩] =
      some (1, ⟨2, some sAllOk⟩, [⟨1, some sAllOk⟩])
    ∧ applyMsg ⟨[⟨1, some sAllOk⟩, ⟨2, some sAllOk⟩], 1, []⟩ (.remove 2) =
      some ⟨[⟨1, some sAllOk⟩], 1, [2]⟩
    ∧ (1 : Nat) ≠ 0 := by decide

/-- C4 (amended): applying `Remove` with an identifier present among the slots
removes that slot (at its index `j`) from the sequence and decrements the
cursor by one when the removed index was strictly before the cursor; the
cursor is unchanged when the removed index was at or after it. -/
theorem c4_remove_cursor (f : Fanout) (ident j : Nat) (s : Slot)
    (rest : List Slot) (h : removeFirst ident f.sinks = some (j, s, rest)) :
    ∃ g, applyMsg f (.remove ident) = some g ∧
      g.sinks = f.sinks.eraseIdx j ∧ s.id = ident ∧
      (j < f.i → g.i = f.i - 1) ∧ (f.i ≤ j → g.i = f.i) := by
  obtain ⟨hid, hrest, hget⟩ := removeFirst_eq_some ident f.sinks j s rest h
  refine ⟨{ sinks := rest, i := if f.i > j then f.i - 1 else f.i,
            closes := f.closes ++
              (match s.sink with | some _ => [s.id] | none => []) },
    ?_, ?_, hid, ?_, ?_⟩
  · simp only [applyMsg, h]
  · simpa using hrest
  · intro hj; simp [hj]
  · intro hj; simp [Nat.not_lt.mpr hj]

/-- C4 witness: the amended theorem at a concrete input (cursor 1, removing
the slot at index 0, which is strictly before the cursor). -/
theorem c4_remove_cursor_witness :
    ∃ g, applyMsg ⟨[⟨5, some sAllOk⟩, ⟨6, none⟩], 1, []⟩ (.remove 5) = some g ∧
      g.sinks = ([⟨5, some sAllOk⟩, ⟨6, none⟩] : List Slot).eraseIdx 0 ∧
      (⟨5, some sAllOk⟩ : Slot).id = 5 ∧
      (0 < 1 → g.i = 1 - 1) ∧ (1 ≤ 0 → g.i = 1) :=
  c4_remove_cursor ⟨[⟨5, some sAllOk⟩, ⟨6, none⟩], 1, []⟩ 5 0
    ⟨5, some sAllOk⟩ [⟨6, none⟩] (by decide)

/-- C10: the escalate-or-evict decision uses the slot count at the moment each
failure is observed, after earlier evictions in the same sweep: if every slot
holds a present handle and every one of them fails the flush call, the whole
`poll_flush` call returns failure, however many slots were registered when the
call began. -/
theorem c10_all_fail_escalates (f : Fanout) (hne : f.sinks ≠ [])
    (h : ∀ s ∈ f.sinks, ∃ u, s.sink = some u ∧ u.flushR = .err) :
    (pollFlush f).1 = .readyErr := by
  have hs := sweep_all_err (fun sk => sk.flushR) f.sinks false [] hne h
  simp [pollFlush, pollSinks, hs]

/-- C10 witness: three slots, every handle present and failing flush; the call
as a whole fails even though three outputs were registered at its start. -/
theorem c10_all_fail_escalates_witness :
    (pollFlush ⟨[⟨1, some sFlushErr⟩, ⟨2, some sFlushErr⟩,
      ⟨3, some sFlushErr⟩], 0, []⟩).1 = .readyErr :=
  c10_all_fail_escalates
    ⟨[⟨1, some sFlushErr⟩, ⟨2, some sFlushErr⟩, ⟨3, some sFlushErr⟩], 0, []⟩
    (by decide)
    (by intro s hs
        fin_cases hs <;> exact ⟨sFlushErr, rfl, rfl⟩)

end VectorFanout

namespace VectorFanout

/-- C6 counterexample: with slot 0 present and ready and slot 1 mid-replacement
(absent handle), `poll_ready` from cursor 0 returns pending but the cursor
*changes* from 0 to 1 (it advances past the ready slot), contradicting the
claim's "without changing the cursor". -/
theorem c6_absent_pending_ce :
    (pollReady ⟨[⟨1, some sAllOk⟩, ⟨2, none⟩], 0, []⟩).1 = .pending
    ∧ (pollReady ⟨[⟨1, some sAllOk⟩, ⟨2, none⟩], 0, []⟩).2.1.i = 1
    ∧ (⟨[⟨1, some sAllOk⟩, ⟨2, none⟩], 0, []⟩ : Fanout).i = 0
    ∧ (1 : Nat) ≠ 0 := by decide

/-- C6 (amended): when the readiness sweep from the cursor reaches a slot with
an absent handle (after any number of present-and-ready slots), `poll_ready`
returns pending immediately, examining no slot past the absent one, and the
cursor is left pointing at the absent slot — it has advanced past exactly the
slots confirmed ready earlier in the same sweep; in particular such a call
never reports readiness. -/
theorem c6_absent_blocks (f : Fanout) (pre : List Slot) (s : Slot)
    (post : List Slot) (hsplit : f.sinks.drop f.i = pre ++ s :: post)
    (hpre : ∀ t ∈ pre, ∃ u, t.sink = some u ∧ u.readyR = .ok)
    (habs : s.sink = none) :
    pollReady f = (.pending, { f with i := f.i + pre.length },
      pre.map Slot.id ++ [s.id]) := by
  obtain ⟨sks, ci, cls⟩ := f
  simp only [] at hsplit ⊢
  have hlt : ci < sks.length := by
    rcases Nat.lt_or_ge ci sks.length with hl | hge
    · exact hl
    · rw [List.drop_eq_nil_of_le hge] at hsplit
      simp at hsplit
  have htake : (sks.take ci).length = ci := by
    rw [List.length_take]; omega
  have hsks : sks.take ci ++ pre ++ s :: post = sks := by
    rw [List.append_assoc, ← hsplit, List.take_append_drop]
  rw [pollReady]
  simp only []
  rw [hsplit, readyLoop_stops pre (sks.take ci) [] s post hpre (Or.inl habs)]
  simp [hsks, htake, List.length_append]

/-- C6 witness: the amended theorem at a concrete state — one ready slot, then
an absent one, then a never-examined slot; the call is pending, the cursor
ends on the absent slot (index 1), and the trace stops there. -/
theorem c6_absent_blocks_witness :
    pollReady ⟨[⟨4, some sAllOk⟩, ⟨9, none⟩, ⟨7, some sAllOk⟩], 0, []⟩ =
      (.pending, ⟨[⟨4, some sAllOk⟩, ⟨9, none⟩, ⟨7, some sAllOk⟩], 1, []⟩,
        [4, 9]) := by
  have h := c6_absent_blocks
    ⟨[⟨4, some sAllOk⟩, ⟨9, none⟩, ⟨7, some sAllOk⟩], 0, []⟩
    [⟨4, some sAllOk⟩] ⟨9, none⟩ [⟨7, some sAllOk⟩] rfl
    (by intro t ht
        fin_cases ht
        exact ⟨sAllOk, rfl, rfl⟩)
    rfl
  rw [h]; rfl

/-- C7: `poll_ready` begins its sweep at the saved cursor, not index 0 (the
examined-slot trace covers exactly the slots from the cursor on); each slot
whose readiness check succeeds advances the cursor past it; a slot whose
readiness check is pending makes `poll_ready` return pending with the cursor
left pointing at that slot; and when the sweep reaches the end of the
sequence the cursor is reset to 0 and ready/success is returned. -/
theorem c7_ready_cursor_resume :
    (∀ (f : Fanout) (pre : List Slot) (s : Slot) (sk : SinkSpec)
      (post : List Slot), f.sinks.drop f.i = pre ++ s :: post →
      (∀ t ∈ pre, ∃ u, t.sink = some u ∧ u.readyR = .ok) →
      s.sink = some sk → sk.readyR = .pending →
      pollReady f = (.pending, { f with i := f.i + pre.length },
        pre.map Slot.id ++ [s.id]))
    ∧ (∀ f : Fanout, (∀ t ∈ f.sinks.drop f.i, ∃ u, t.sink = some u ∧
        u.readyR = .ok) →
      pollReady f = (.readyOk, { f with i := 0 },
        (f.sinks.drop f.i).map Slot.id)) := by
  constructor
  · intro f pre s sk post hsplit hpre hsk hp
    obtain ⟨sks, ci, cls⟩ := f
    simp only [] at hsplit ⊢
    have hlt : ci < sks.length := by
      rcases Nat.lt_or_ge ci sks.length with hl | hge
      · exact hl
      · rw [List.drop_eq_nil_of_le hge] at hsplit
        simp at hsplit
    have htake : (sks.take ci).length = ci := by
      rw [List.length_take]; omega
    have hsks : sks.take ci ++ pre ++ s :: post = sks := by
      rw [List.append_assoc, ← hsplit, List.take_append_drop]
    rw [pollReady]
    simp only []
    rw [hsplit, readyLoop_stops pre (sks.take ci) [] s post hpre
      (Or.inr ⟨sk, hsk, hp⟩)]
    simp [hsks, htake, List.length_append]
  · intro f h
    obtain ⟨sks, ci, cls⟩ := f
    simp only [] at h ⊢
    rw [pollReady]
    simp only []
    rw [readyLoop_all_ready (sks.drop ci) (sks.take ci) [] h]
    simp [List.take_append_drop]

/-- C7 witness: a concrete state with cursor 1 — slot 0 is never examined
(trace starts at slot 1), the ready slot advances the cursor, the pending slot
stops the sweep with the cursor on it; and a second state where the sweep
completes, resets the cursor to 0 and reports ready. -/
theorem c7_ready_cursor_resume_witness :
    pollReady ⟨[⟨1, some sReadyPend⟩, ⟨2, some sAllOk⟩, ⟨3, some sReadyPend⟩],
        1, []⟩ =
      (.pending, ⟨[⟨1, some sReadyPend⟩, ⟨2, some sAllOk⟩,
        ⟨3, some sReadyPend⟩], 2, []⟩, [2, 3])
    ∧ pollReady ⟨[⟨1, some sReadyPend⟩, ⟨2, some sAllOk⟩], 1, []⟩ =
      (.readyOk, ⟨[⟨1, some sReadyPend⟩, ⟨2, some sAllOk⟩], 0, []⟩, [2]) := by
  constructor
  · have h := c7_ready_cursor_resume.1
      ⟨[⟨1, some sReadyPend⟩, ⟨2, some sAllOk⟩, ⟨3, some sReadyPend⟩], 1, []⟩
      [⟨2, some sAllOk⟩] ⟨3, some sReadyPend⟩ sReadyPend [] rfl
      (by intro t ht
          fin_cases ht
          exact ⟨sAllOk, rfl, rfl⟩)
      rfl rfl
    rw [h]; rfl
  · have h := c7_ready_cursor_resume.2
      ⟨[⟨1, some sReadyPend⟩, ⟨2, some sAllOk⟩], 1, []⟩
      (by intro t ht
          fin_cases ht
          exact ⟨sAllOk, rfl, rfl⟩)
    rw [h]; rfl

/-- C9: `Add` with an identifier already present, and `Remove`/`Replace` with
an identifier matching no slot, panic (a fatal invariant violation, modelled
as `none`) rather than returning a recoverable value; `Add` with a fresh
identifier appends a slot holding the new handle, and `Remove`/`Replace` with
a matching identifier complete without a panic. -/
theorem c9_invariant_violations :
    (∀ (f : Fanout) (ident : Nat) (sk : SinkSpec),
      (∃ t ∈ f.sinks, t.id = ident) → applyMsg f (.add ident sk) = none)
    ∧ (∀ (f : Fanout) (ident : Nat) (sk : SinkSpec),
      (∀ t ∈ f.sinks, t.id ≠ ident) →
      applyMsg f (.add ident sk) =
        some { f with sinks := f.sinks ++ [⟨ident, some sk⟩] })
    ∧ (∀ (f : Fanout) (ident : Nat),
      (∀ t ∈ f.sinks, t.id ≠ ident) → applyMsg f (.remove ident) = none)
    ∧ (∀ (f : Fanout) (ident : Nat),
      (∃ t ∈ f.sinks, t.id = ident) → (applyMsg f (.remove ident)).isSome)
    ∧ (∀ (f : Fanout) (ident : Nat) (sk : Option SinkSpec),
      (∀ t ∈ f.sinks, t.id ≠ ident) → applyMsg f (.replace ident sk) = none)
    ∧ (∀ (f : Fanout) (ident : Nat) (sk : Option SinkSpec),
      (∃ t ∈ f.sinks, t.id = ident) → (applyMsg f (.replace ident sk)).isSome) := by
  refine ⟨?_, ?_, ?_, ?_, ?_, ?_⟩
  · intro f ident sk h
    obtain ⟨t, ht, hid⟩ := h
    have ha : f.sinks.any (fun s => s.id == ident) = true :=
      List.any_eq_true.mpr ⟨t, ht, by simp [hid]⟩
    simp [applyMsg, ha]
  · intro f ident sk h
    have ha : f.sinks.any (fun s => s.id == ident) = false := by
      rw [List.any_eq_false]
      intro t ht
      simp [h t ht]
    simp [applyMsg, ha]
  · intro f ident h
    have hr : removeFirst ident f.sinks = none :=
      (removeFirst_eq_none_iff ident f.sinks).mpr h
    simp [applyMsg, hr]
  · intro f ident h
    obtain ⟨t, ht, hid⟩ := h
    cases hr : removeFirst ident f.sinks with
    | none =>
      exact absurd hid ((removeFirst_eq_none_iff ident f.sinks).mp hr t ht)
    | some p =>
      obtain ⟨j, s, rest⟩ := p
      simp [applyMsg, hr]
  · intro f ident sk h
    have hr : replaceFirst ident sk f.sinks = none :=
      (replaceFirst_eq_none_iff ident sk f.sinks).mpr h
    simp [applyMsg, hr]
  · intro f ident sk h
    obtain ⟨t, ht, hid⟩ := h
    cases hr : replaceFirst ident sk f.sinks with
    | none =>
      exact absurd hid ((replaceFirst_eq_none_iff ident sk f.sinks).mp hr t ht)
    | some l =>
      simp [applyMsg, hr]

/-- C9 witness: each branch of the invariant theorem at a concrete state:
duplicate `Add` panics, fresh `Add` appends, `Remove`/`Replace` of a missing
id panic, and `Remove`/`Replace` of a present id complete. -/
theorem c9_invariant_violations_witness :
    applyMsg ⟨[⟨1, some sAllOk⟩], 0, []⟩ (.add 1 sAllOk) = none
    ∧ applyMsg ⟨[⟨1, some sAllOk⟩], 0, []⟩ (.add 2 sAllOk) =
      some { (⟨[⟨1, some sAllOk⟩], 0, []⟩ : Fanout) with
        sinks := [⟨1, some sAllOk⟩] ++ [⟨2, some sAllOk⟩] }
    ∧ applyMsg ⟨[⟨1, some sAllOk⟩], 0, []⟩ (.remove 2) = none
    ∧ (applyMsg ⟨[⟨1, some sAllOk⟩], 0, []⟩ (.remove 1)).isSome
    ∧ applyMsg ⟨[⟨1, some sAllOk⟩], 0, []⟩ (.replace 2 none) = none
    ∧ (applyMsg ⟨[⟨1, some sAllOk⟩], 0, []⟩ (.replace 1 none)).isSome := by
  refine ⟨?_, ?_, ?_, ?_, ?_, ?_⟩
  · exact c9_invariant_violations.1 _ 1 sAllOk ⟨⟨1, some sAllOk⟩, by simp, rfl⟩
  · exact c9_invariant_violations.2.1 _ 2 sAllOk
      (by intro t ht; fin_cases ht; simp)
  · exact c9_invariant_violations.2.2.1 _ 2
      (by intro t ht; fin_cases ht; simp)
  · exact c9_invariant_violations.2.2.2.1 _ 1 ⟨⟨1, some sAllOk⟩, by simp, rfl⟩
  · exact c9_invariant_violations.2.2.2.2.1 _ 2 none
      (by intro t ht; fin_cases ht; simp)
  · exact c9_invariant_violations.2.2.2.2.2 _ 1 none
      ⟨⟨1, some sAllOk⟩, by simp, rfl⟩

end VectorFanout

namespace VectorFanout

theorem sweep_append_no_err (resp : SinkSpec → PollR) (xs : List Slot) :
    ∀ (done rest : List Slot) (pend : Bool) (tr : List Nat),
    (∀ s ∈ xs, ∀ u, s.sink = some u → resp u ≠ .err) →
    sweep resp done (xs ++ rest) pend tr =
      sweep resp (done ++ xs) rest (pend || anyPendingR resp xs)
        (tr ++ presentIds xs) := by
  induction xs with
  | nil => intro done rest pend tr _; simp [anyPendingR, presentIds]
  | cons s xs ih =>
    intro done rest pend tr h
    rw [List.cons_append, sweep]
    cases hu : s.sink with
    | none =>
      simp only []
      rw [ih (done ++ [s]) rest pend tr (fun t ht => h t (by simp [ht]))]
      simp [anyPendingR_cons, presentIds_cons, hu]
    | some u =>
      have hne := h s (by simp) u hu
      cases hr : resp u with
      | err => exact absurd hr hne
      | ok =>
        simp only []
        rw [ih (done ++ [s]) rest pend (tr ++ [s.id])
          (fun t ht => h t (by simp [ht]))]
        simp [anyPendingR_cons, presentIds_cons, hu, hr, pollR_ok_beq_pending]
      | pending =>
        simp only []
        rw [ih (done ++ [s]) rest true (tr ++ [s.id])
          (fun t ht => h t (by simp [ht]))]
        simp [anyPendingR_cons, presentIds_cons, hu, hr,
          pollR_pending_beq_pending]

theorem pollReady_closes (f : Fanout) :
    (pollReady f).2.1.closes = f.closes := by
  rcases h : readyLoop (f.sinks.take f.i) (f.sinks.drop f.i) [] with ⟨r, a, b, c⟩
  simp [pollReady, h]

theorem pollSinks_closes (resp : SinkSpec → PollR) (f : Fanout) :
    (pollSinks resp f).2.1.closes = f.closes := rfl

theorem startSend_closes (f : Fanout) (x : Nat)
    (r : Bool × Fanout × List (Nat × Nat)) (h : startSend f x = some r) :
    r.2.1.closes = f.closes := by
  rw [startSend] at h
  repeat' split at h
  all_goals first
    | (injection h with h2; subst h2; rfl)
    | exact Option.noConfusion h

/-- C8: `poll_flush` and `poll_close` first apply all pending control
messages, then sweep the whole resulting slot sequence from index 0 (the
cursor is neither consulted nor modified), invoking the respective protocol
call on every present handle — including those after a pending one; the
overall result is pending when some present handle is pending and
ready/success exactly when every present handle completed successfully
(stated here for sweeps in which no handle fails; failing handles are the
subject of the failure-policy claim). -/
theorem c8_flush_close_sweep (f : Fanout) (msgs : List ControlMessage)
    (g : Fanout) (hc : applyMsgs f msgs = some g)
    (herr : ∀ s ∈ g.sinks, ∀ u, s.sink = some u →
      u.flushR ≠ .err ∧ u.closeR ≠ .err) :
    pollFlushFull f msgs =
      some ((if anyPendingR (fun sk => sk.flushR) g.sinks then .pending
             else .readyOk), g, presentIds g.sinks)
    ∧ pollCloseFull f msgs =
      some ((if anyPendingR (fun sk => sk.closeR) g.sinks then .pending
             else .readyOk), g, presentIds g.sinks) := by
  have hf := sweep_no_err (fun sk => sk.flushR) g.sinks [] false []
    (fun s hs u hu => (herr s hs u hu).1)
  have hcl := sweep_no_err (fun sk => sk.closeR) g.sinks [] false []
    (fun s hs u hu => (herr s hs u hu).2)
  obtain ⟨sks, ci, cls⟩ := g
  simp only [] at hf hcl
  constructor
  · rw [pollFlushFull, hc]
    simp only [Option.map_some', Option.some.injEq]
    rw [pollFlush, pollSinks]
    simp [hf]
  · rw [pollCloseFull, hc]
    simp only [Option.map_some', Option.some.injEq]
    rw [pollClose, pollSinks]
    simp [hcl]

/-- C8 witness: one queued `Add` is applied first, then the sweep covers both
slots (trace `[1, 2]`), no handle is pending, and both calls report
ready/success with the drained state. -/
theorem c8_flush_close_sweep_witness :
    pollFlushFull ⟨[⟨1, some sAllOk⟩], 5, []⟩ [.add 2 sAllOk] =
      some (.readyOk, ⟨[⟨1, some sAllOk⟩, ⟨2, some sAllOk⟩], 5, []⟩, [1, 2])
    ∧ pollCloseFull ⟨[⟨1, some sAllOk⟩], 5, []⟩ [.add 2 sAllOk] =
      some (.readyOk, ⟨[⟨1, some sAllOk⟩, ⟨2, some sAllOk⟩], 5, []⟩, [1, 2]) := by
  have h := c8_flush_close_sweep ⟨[⟨1, some sAllOk⟩], 5, []⟩ [.add 2 sAllOk]
    ⟨[⟨1, some sAllOk⟩, ⟨2, some sAllOk⟩], 5, []⟩ (by decide)
    (by intro s hs u hu
        fin_cases hs <;> (injection hu with h2; subst h2; exact ⟨by decide, by decide⟩))
  exact ⟨by rw [h.1]; rfl, by rw [h.2]; rfl⟩

/-- C3 (code-bug trace): from the reachable state with three present sinks —
two that fail flush, one whose readiness is pending — `poll_ready` leaves the
cursor at 2, and the following `poll_flush` evicts the two failing slots
without adjusting the cursor, leaving cursor 2 with only 1 slot: the claimed
invariant `cursor ≤ number_of_slots` is violated.  Consequently the next
`poll_ready` reports ready/success with an empty examined-slot trace even
though a (pending) sink remains. -/
theorem c3_cursor_exceeds_slot_count :
    pollReady ⟨[⟨1, some sFlushErr⟩, ⟨2, some sFlushErr⟩,
        ⟨3, some sReadyPend⟩], 0, []⟩ =
      (.pending, ⟨[⟨1, some sFlushErr⟩, ⟨2, some sFlushErr⟩,
        ⟨3, some sReadyPend⟩], 2, []⟩, [1, 2, 3])
    ∧ pollFlush ⟨[⟨1, some sFlushErr⟩, ⟨2, some sFlushErr⟩,
        ⟨3, some sReadyPend⟩], 2, []⟩ =
      (.readyOk, ⟨[⟨3, some sReadyPend⟩], 2, []⟩, [1, 2, 3])
    ∧ ¬ ((⟨[⟨3, some sReadyPend⟩], 2, []⟩ : Fanout).i ≤
        (⟨[⟨3, some sReadyPend⟩], 2, []⟩ : Fanout).sinks.length)
    ∧ pollReady ⟨[⟨3, some sReadyPend⟩], 2, []⟩ =
      (.readyOk, ⟨[⟨3, some sReadyPend⟩], 0, []⟩, [])
    ∧ ([⟨3, some sReadyPend⟩] : List Slot) ≠ [] := by decide

end VectorFanout

namespace VectorFanout

theorem sendLoop_append_accept (item : Nat) (xs : List Slot) :
    ∀ (done rest : List Slot) (pool : Nat) (tr : List (Nat × Nat)),
    (∀ s ∈ xs, ∀ u, s.sink = some u → u.sendOk = true) →
    (presentIds xs).length ≤ pool →
    sendLoop item done (xs ++ rest) pool tr =
      sendLoop item (done ++ xs) rest (pool - (presentIds xs).length)
        (tr ++ (presentIds xs).map (fun n => (n, item))) := by
  induction xs with
  | nil => intro done rest pool tr _ _; simp [presentIds]
  | cons s xs ih =>
    intro done rest pool tr h hp
    rw [List.cons_append, sendLoop]
    cases hu : s.sink with
    | none =>
      simp only []
      rw [ih (done ++ [s]) rest pool tr (fun t ht => h t (by simp [ht]))
        (by simpa [presentIds_cons, hu] using hp)]
      simp [presentIds_cons, hu]
    | some u =>
      have hok := h s (by simp) u hu
      rw [presentIds_cons, hu] at hp
      simp only [List.singleton_append, List.length_cons] at hp
      cases pool with
      | zero => exact absurd hp (by simp)
      | succ pool' =>
        simp only [hok, if_true]
        rw [ih (done ++ [s]) rest pool' (tr ++ [(s.id, item)])
          (fun t ht => h t (by simp [ht])) (Nat.le_of_succ_le_succ hp)]
        simp [presentIds_cons, hu, Nat.succ_sub_succ]

theorem startSend_all_accept (f : Fanout) (item : Nat)
    (hok : ∀ s ∈ f.sinks, ∀ u, s.sink = some u → u.sendOk = true) :
    startSend f item =
      some (true, f, (presentIds (f.sinks.drop 1 ++ f.sinks.take 1)).map
        (fun n => (n, item))) := by
  obtain ⟨sks, ci, cls⟩ := f
  cases sks with
  | nil => simp [startSend, sendLoop, presentIds]
  | cons s0 rest =>
    have htail : ∀ s ∈ rest, ∀ u, s.sink = some u → u.sendOk = true :=
      fun s hs u hu => hok s (by simp [hs]) u hu
    rw [startSend]
    simp only [List.take_succ_cons, List.take_zero, List.drop_succ_cons,
      List.drop_zero, List.length_cons]
    rw [sendLoop_all_accept item rest [s0] (rest.length + 1) [] htail
      (le_trans (presentIds_length_le rest) (Nat.le_succ _))]
    simp only [List.singleton_append, List.nil_append]
    cases hs0 : s0.sink with
    | none =>
      simp [presentIds_append, presentIds_cons, presentIds, hs0]
    | some u =>
      have hu : u.sendOk = true := hok s0 (by simp) u hs0
      have hsub : rest.length + 1 - (presentIds rest).length =
          (rest.length - (presentIds rest).length) + 1 := by
        have := presentIds_length_le rest; omega
      rw [hsub]
      simp [hu, hs0, presentIds_append, presentIds_cons, presentIds]

/-- C2: the per-slot failure policy, shared by every protocol phase.
(1) When the failing slot is the only one in the sequence at the moment of
failure, `handle_sink_error` escalates (`Err`); lifted to each phase in (4):
readiness, send, flush and close on a sole failing output all return failure.
(2) Otherwise the failing slot is removed from the sequence — nothing else.
(3) No protocol operation ever touches the asynchronous-close schedule, so an
eviction never schedules a close.  (5) For the flush/close sweep
(`poll_sinks`), when a failing slot sits among ≥ 2 slots and the others do not
fail, it is evicted, the sweep continues over the remaining slots, and both
the overall result and the final state equal those of the same call on the
state without the failing slot.  (6) For readiness, a failing slot at the
cursor amid other non-failing slots is evicted and the sweep continues over
the rest with the result unaffected.  (7) For the send phase, a rejecting
handle at index ≥ 1 amid other accepting slots is evicted, every remaining
present slot still receives the item, the call returns success, and the whole
call (result, state and deliveries) equals the same call on the state without
the failing slot.  (8) Likewise a rejecting handle at index 0 amid ≥ 2 slots
(the `first_mut()` block) is evicted after the others were delivered to, and
the call returns success. -/
theorem c2_failure_policy :
    (∀ (sinks : List Slot) (idx : Nat), sinks.length = 1 →
      handleSinkError sinks idx = none)
    ∧ (∀ (sinks : List Slot) (idx : Nat), sinks.length ≠ 1 →
      handleSinkError sinks idx = some (sinks.eraseIdx idx))
    ∧ (∀ f : Fanout, (pollReady f).2.1.closes = f.closes
        ∧ (pollFlush f).2.1.closes = f.closes
        ∧ (pollClose f).2.1.closes = f.closes
        ∧ ∀ (x : Nat) (r : Bool × Fanout × List (Nat × Nat)),
            startSend f x = some r → r.2.1.closes = f.closes)
    ∧ (∀ (f : Fanout) (ident : Nat) (u : SinkSpec),
        f.sinks = [⟨ident, some u⟩] →
        (u.readyR = .err → f.i = 0 → (pollReady f).1 = .readyErr)
        ∧ (u.sendOk = false → ∀ x, startSend f x = some (false, f, []))
        ∧ (u.flushR = .err → (pollFlush f).1 = .readyErr)
        ∧ (u.closeR = .err → (pollClose f).1 = .readyErr))
    ∧ (∀ (resp : SinkSpec → PollR) (f : Fanout) (xs ys : List Slot) (k : Slot)
        (u : SinkSpec), f.sinks = xs ++ k :: ys → k.sink = some u →
        resp u = .err →
        (∀ t ∈ xs ++ ys, ∀ v, t.sink = some v → resp v ≠ .err) →
        xs ++ ys ≠ [] →
        (pollSinks resp f).1 = (pollSinks resp { f with sinks := xs ++ ys }).1
        ∧ (pollSinks resp f).2.1 = { f with sinks := xs ++ ys })
    ∧ (∀ (f : Fanout) (xs ys : List Slot) (k : Slot) (u : SinkSpec),
        f.sinks = xs ++ k :: ys → f.i = xs.length → k.sink = some u →
        u.readyR = .err →
        (∀ t ∈ ys, ∃ v, t.sink = some v ∧ v.readyR = .ok) →
        xs ++ ys ≠ [] →
        pollReady f = (.readyOk, { f with sinks := xs ++ ys, i := 0 },
          k.id :: ys.map Slot.id))
    ∧ (∀ (f : Fanout) (x0 : Slot) (xs ys : List Slot) (k : Slot)
        (u : SinkSpec) (item : Nat),
        f.sinks = x0 :: (xs ++ k :: ys) → k.sink = some u →
        u.sendOk = false →
        (∀ t ∈ x0 :: (xs ++ ys), ∀ v, t.sink = some v → v.sendOk = true) →
        startSend f item = some (true, { f with sinks := x0 :: (xs ++ ys) },
          (presentIds ((xs ++ ys) ++ [x0])).map (fun n => (n, item)))
        ∧ startSend f item =
            startSend { f with sinks := x0 :: (xs ++ ys) } item)
    ∧ (∀ (f : Fanout) (k : Slot) (rest : List Slot) (u : SinkSpec)
        (item : Nat),
        f.sinks = k :: rest → rest ≠ [] → k.sink = some u →
        u.sendOk = false →
        (∀ t ∈ rest, ∀ v, t.sink = some v → v.sendOk = true) →
        startSend f item = some (true, { f with sinks := rest },
          (presentIds rest).map (fun n => (n, item)))) := by
  refine ⟨?_, ?_, ?_, ?_, ?_, ?_, ?_, ?_⟩
  · intro sinks idx h
    simp [handleSinkError, h]
  · intro sinks idx h
    simp [handleSinkError, h]
  · intro f
    exact ⟨pollReady_closes f, rfl, rfl, fun x r h => startSend_closes f x r h⟩
  · intro f ident u hsks
    obtain ⟨sks, ci, cls⟩ := f
    simp only [] at hsks
    subst hsks
    refine ⟨?_, ?_, ?_, ?_⟩
    · intro hr hi
      simp only [] at hi
      subst hi
      simp [pollReady, readyLoop, hr]
    · intro hsend x
      simp [startSend, sendLoop, hsend]
    · intro hfl
      simp [pollFlush, pollSinks, sweep, hfl]
    · intro hcl
      simp [pollClose, pollSinks, sweep, hcl]
  · intro resp f xs ys k u hsks hk hr hothers hne
    obtain ⟨sks, ci, cls⟩ := f
    simp only [] at hsks
    subst hsks
    have hpos : 0 < xs.length + ys.length := by
      have := List.length_pos.mpr hne
      simpa [List.length_append] using this
    have hxs : ∀ s ∈ xs, ∀ v, s.sink = some v → resp v ≠ .err :=
      fun s hs => hothers s (by simp [hs])
    have hys : ∀ s ∈ ys, ∀ v, s.sink = some v → resp v ≠ .err :=
      fun s hs => hothers s (by simp [hs])
    have hfull : sweep resp [] (xs ++ k :: ys) false [] =
        ⟨false, xs ++ ys, anyPendingR resp xs || anyPendingR resp ys,
          presentIds xs ++ k.id :: presentIds ys⟩ := by
      rw [sweep_append_no_err resp xs [] (k :: ys) false [] hxs]
      simp only [List.nil_append, Bool.false_or]
      rw [sweep]
      simp only [hk, hr]
      have hc : (xs.length + (k :: ys).length == 1) = false := by
        rw [beq_eq_false_iff_ne]
        simp only [List.length_cons]
        omega
      rw [hc]
      simp only [Bool.false_eq_true, if_false]
      rw [sweep_no_err resp ys xs (anyPendingR resp xs)
        (presentIds xs ++ [k.id]) hys]
      simp
    have herased : sweep resp [] (xs ++ ys) false [] =
        ⟨false, [] ++ (xs ++ ys), false || anyPendingR resp (xs ++ ys),
          [] ++ presentIds (xs ++ ys)⟩ :=
      sweep_no_err resp (xs ++ ys) [] false [] hothers
    constructor
    · simp [pollSinks, hfull, herased, anyPendingR_append]
    · simp [pollSinks, hfull]
  · intro f xs ys k u hsks hi hk hr hys hne
    obtain ⟨sks, ci, cls⟩ := f
    simp only [] at hsks hi
    subst hsks
    subst hi
    have hpos : 0 < xs.length + ys.length := by
      have := List.length_pos.mpr hne
      simpa [List.length_append] using this
    rw [pollReady]
    simp only [List.take_left, List.drop_left]
    rw [readyLoop]
    simp only [hk, hr]
    have hc : (xs.length + (k :: ys).length == 1) = false := by
      rw [beq_eq_false_iff_ne]
      simp only [List.length_cons]
      omega
    rw [hc]
    simp only [Bool.false_eq_true, if_false]
    rw [readyLoop_all_ready ys xs ([] ++ [k.id]) hys]
    simp
  · intro f x0 xs ys k u item hsks hk hK hothers
    obtain ⟨sks, ci, cls⟩ := f
    simp only [] at hsks
    subst hsks
    have hx0 : ∀ v, x0.sink = some v → v.sendOk = true :=
      fun v hv => hothers x0 (by simp) v hv
    have hxs : ∀ s ∈ xs, ∀ v, s.sink = some v → v.sendOk = true :=
      fun s hs => hothers s (by simp [hs])
    have hys : ∀ s ∈ ys, ∀ v, s.sink = some v → v.sendOk = true :=
      fun s hs => hothers s (by simp [hs])
    have hpx := presentIds_length_le xs
    have hpy := presentIds_length_le ys
    have hp1 : (presentIds xs).length ≤ (xs ++ k :: ys).length + 1 := by
      simp only [List.length_append, List.length_cons]
      omega
    have hpool1 : (xs ++ k :: ys).length + 1 - (presentIds xs).length =
        (xs.length + ys.length + 1 - (presentIds xs).length) + 1 := by
      simp only [List.length_append, List.length_cons]
      omega
    have hp2 : (presentIds ys).length ≤
        xs.length + ys.length + 1 - (presentIds xs).length := by
      omega
    have hc : ((([x0] ++ xs).length + (k :: ys).length) == 1) = false := by
      rw [beq_eq_false_iff_ne]
      simp only [List.length_append, List.length_cons]
      omega
    have hpool3 : xs.length + ys.length + 1 - (presentIds xs).length -
        (presentIds ys).length =
        (xs.length + ys.length - (presentIds xs).length -
          (presentIds ys).length) + 1 := by
      omega
    have hexp : startSend ⟨x0 :: (xs ++ k :: ys), ci, cls⟩ item =
        some (true, ⟨x0 :: (xs ++ ys), ci, cls⟩,
          (presentIds ((xs ++ ys) ++ [x0])).map (fun n => (n, item))) := by
      rw [startSend]
      simp only [List.take_succ_cons, List.take_zero, List.drop_succ_cons,
        List.drop_zero, List.length_cons]
      rw [sendLoop_append_accept item xs [x0] (k :: ys)
        ((xs ++ k :: ys).length + 1) [] hxs hp1]
      simp only [List.nil_append]
      rw [sendLoop]
      simp only [hk]
      rw [hpool1]
      simp only [hK, Bool.false_eq_true, if_false]
      rw [hc]
      simp only [Bool.false_eq_true, if_false]
      rw [sendLoop_all_accept item ys ([x0] ++ xs)
        (xs.length + ys.length + 1 - (presentIds xs).length)
        ((presentIds xs).map (fun n => (n, item))) hys hp2]
      simp only [List.singleton_append, List.cons_append]
      rw [hpool3]
      cases hx0s : x0.sink with
      | none =>
        simp [presentIds_append, presentIds_cons, presentIds, hx0s,
          List.map_append]
      | some v =>
        have hv := hx0 v hx0s
        simp [hv, hx0s, presentIds_append, presentIds_cons, presentIds,
          List.map_append]
    constructor
    · exact hexp
    · rw [hexp, startSend_all_accept ⟨x0 :: (xs ++ ys), ci, cls⟩ item hothers]
      simp [presentIds_append]
  · intro f k rest u item hsks hne hk hK hrest
    obtain ⟨sks, ci, cls⟩ := f
    simp only [] at hsks
    subst hsks
    rw [startSend]
    simp only [List.take_succ_cons, List.take_zero, List.drop_succ_cons,
      List.drop_zero, List.length_cons]
    rw [sendLoop_all_accept item rest [k] (rest.length + 1) [] hrest
      (le_trans (presentIds_length_le rest) (Nat.le_succ _))]
    simp only [List.singleton_append, List.nil_append]
    have hsub : rest.length + 1 - (presentIds rest).length =
        (rest.length - (presentIds rest).length) + 1 := by
      have := presentIds_length_le rest
      omega
    rw [hsub]
    simp only [hk, hK, Bool.false_eq_true, if_false]
    have hc : ((rest.length + 1 : Nat) == 1) = false := by
      rw [beq_eq_false_iff_ne]
      have := List.length_pos.mpr hne
      omega
    rw [hc]
    simp only [Bool.false_eq_true, if_false]

end VectorFanout

namespace VectorFanout

/-- C2 witness: every branch of the failure policy at concrete inputs — sole
slot escalates in each phase, a non-sole failing slot is evicted with the
close schedule untouched and the result unchanged. -/
theorem c2_failure_policy_witness :
    handleSinkError [⟨1, some sAllOk⟩] 0 = none
    ∧ handleSinkError [⟨1, some sAllOk⟩, ⟨2, some sAllOk⟩] 0 =
      some (([⟨1, some sAllOk⟩, ⟨2, some sAllOk⟩] : List Slot).eraseIdx 0)
    ∧ (pollReady ⟨[⟨1, some sAllOk⟩], 0, []⟩).2.1.closes =
      (⟨[⟨1, some sAllOk⟩], 0, []⟩ : Fanout).closes
    ∧ ((true, (⟨[⟨1, some sAllOk⟩], 0, []⟩ : Fanout),
        [((1 : Nat), (5 : Nat))]) :
        Bool × Fanout × List (Nat × Nat)).2.1.closes =
      (⟨[⟨1, some sAllOk⟩], 0, []⟩ : Fanout).closes
    ∧ (pollReady ⟨[⟨1, some ⟨.err, true, .ok, .ok⟩⟩], 0, []⟩).1 = .readyErr
    ∧ startSend ⟨[⟨1, some ⟨.ok, false, .ok, .ok⟩⟩], 0, []⟩ 9 =
      some (false, ⟨[⟨1, some ⟨.ok, false, .ok, .ok⟩⟩], 0, []⟩, [])
    ∧ (pollFlush ⟨[⟨1, some sFlushErr⟩], 0, []⟩).1 = .readyErr
    ∧ (pollClose ⟨[⟨1, some ⟨.ok, true, .ok, .err⟩⟩], 0, []⟩).1 = .readyErr
    ∧ (pollSinks (fun sk => sk.flushR)
        ⟨[⟨1, some sFlushErr⟩, ⟨2, some sAllOk⟩], 0, []⟩).1 =
      (pollSinks (fun sk => sk.flushR)
        { (⟨[⟨1, some sFlushErr⟩, ⟨2, some sAllOk⟩], 0, []⟩ : Fanout) with
          sinks := [] ++ [⟨2, some sAllOk⟩] }).1
    ∧ (pollSinks (fun sk => sk.flushR)
        ⟨[⟨1, some sFlushErr⟩, ⟨2, some sAllOk⟩], 0, []⟩).2.1 =
      { (⟨[⟨1, some sFlushErr⟩, ⟨2, some sAllOk⟩], 0, []⟩ : Fanout) with
        sinks := [] ++ [⟨2, some sAllOk⟩] }
    ∧ pollReady ⟨[⟨1, some ⟨.err, true, .ok, .ok⟩⟩, ⟨2, some sAllOk⟩],
        0, []⟩ =
      (.readyOk,
        { (⟨[⟨1, some ⟨.err, true, .ok, .ok⟩⟩, ⟨2, some sAllOk⟩],
            0, []⟩ : Fanout) with
          sinks := [] ++ [⟨2, some sAllOk⟩], i := 0 },
        (⟨1, some ⟨.err, true, .ok, .ok⟩⟩ : Slot).id ::
          ([⟨2, some sAllOk⟩] : List Slot).map Slot.id)
    ∧ startSend ⟨[⟨1, some sAllOk⟩, ⟨2, some ⟨.ok, false, .ok, .ok⟩⟩,
        ⟨3, some sAllOk⟩], 0, []⟩ 5 =
      some (true,
        { (⟨[⟨1, some sAllOk⟩, ⟨2, some ⟨.ok, false, .ok, .ok⟩⟩,
            ⟨3, some sAllOk⟩], 0, []⟩ : Fanout) with
          sinks := ⟨1, some sAllOk⟩ :: ([] ++ [⟨3, some sAllOk⟩]) },
        (presentIds (([] ++ [⟨3, some sAllOk⟩]) ++ [⟨1, some sAllOk⟩])).map
          (fun n => (n, 5)))
    ∧ startSend ⟨[⟨1, some sAllOk⟩, ⟨2, some ⟨.ok, false, .ok, .ok⟩⟩,
        ⟨3, some sAllOk⟩], 0, []⟩ 5 =
      startSend
        { (⟨[⟨1, some sAllOk⟩, ⟨2, some ⟨.ok, false, .ok, .ok⟩⟩,
            ⟨3, some sAllOk⟩], 0, []⟩ : Fanout) with
          sinks := ⟨1, some sAllOk⟩ :: ([] ++ [⟨3, some sAllOk⟩]) } 5
    ∧ startSend ⟨[⟨1, some ⟨.ok, false, .ok, .ok⟩⟩, ⟨2, some sAllOk⟩],
        0, []⟩ 6 =
      some (true,
        { (⟨[⟨1, some ⟨.ok, false, .ok, .ok⟩⟩, ⟨2, some sAllOk⟩],
            0, []⟩ : Fanout) with sinks := [⟨2, some sAllOk⟩] },
        (presentIds [⟨2, some sAllOk⟩]).map (fun n => (n, 6))) := by
  have h7 := c2_failure_policy.2.2.2.2.2.2.1
    ⟨[⟨1, some sAllOk⟩, ⟨2, some ⟨.ok, false, .ok, .ok⟩⟩,
      ⟨3, some sAllOk⟩], 0, []⟩
    ⟨1, some sAllOk⟩ [] [⟨3, some sAllOk⟩]
    ⟨2, some ⟨.ok, false, .ok, .ok⟩⟩ ⟨.ok, false, .ok, .ok⟩ 5 rfl rfl rfl
    (by intro t ht v hv
        simp only [List.nil_append] at ht
        fin_cases ht <;> (injection hv with h2; subst h2; rfl))
  have h8 := c2_failure_policy.2.2.2.2.2.2.2
    ⟨[⟨1, some ⟨.ok, false, .ok, .ok⟩⟩, ⟨2, some sAllOk⟩], 0, []⟩
    ⟨1, some ⟨.ok, false, .ok, .ok⟩⟩ [⟨2, some sAllOk⟩]
    ⟨.ok, false, .ok, .ok⟩ 6 rfl (by simp) rfl rfl
    (by intro t ht v hv
        simp only [List.mem_singleton] at ht
        subst ht
        injection hv with h2
        subst h2
        rfl)
  have h5 := c2_failure_policy.2.2.2.2.1 (fun sk => sk.flushR)
    ⟨[⟨1, some sFlushErr⟩, ⟨2, some sAllOk⟩], 0, []⟩
    [] [⟨2, some sAllOk⟩] ⟨1, some sFlushErr⟩ sFlushErr rfl rfl rfl
    (by intro t ht v hv
        simp only [List.nil_append, List.mem_singleton] at ht
        subst ht
        injection hv with h2
        subst h2
        decide)
    (by simp)
  refine ⟨c2_failure_policy.1 [⟨1, some sAllOk⟩] 0 rfl,
    c2_failure_policy.2.1 [⟨1, some sAllOk⟩, ⟨2, some sAllOk⟩] 0 (by decide),
    (c2_failure_policy.2.2.1 ⟨[⟨1, some sAllOk⟩], 0, []⟩).1,
    (c2_failure_policy.2.2.1 ⟨[⟨1, some sAllOk⟩], 0, []⟩).2.2.2 5
      (true, ⟨[⟨1, some sAllOk⟩], 0, []⟩, [((1 : Nat), (5 : Nat))])
      (by decide),
    ((c2_failure_policy.2.2.2.1 ⟨[⟨1, some ⟨.err, true, .ok, .ok⟩⟩], 0, []⟩
      1 ⟨.err, true, .ok, .ok⟩ rfl).1) rfl rfl,
    ((c2_failure_policy.2.2.2.1 ⟨[⟨1, some ⟨.ok, false, .ok, .ok⟩⟩], 0, []⟩
      1 ⟨.ok, false, .ok, .ok⟩ rfl).2.1) rfl 9,
    ((c2_failure_policy.2.2.2.1 ⟨[⟨1, some sFlushErr⟩], 0, []⟩
      1 sFlushErr rfl).2.2.1) rfl,
    ((c2_failure_policy.2.2.2.1 ⟨[⟨1, some ⟨.ok, true, .ok, .err⟩⟩], 0, []⟩
      1 ⟨.ok, true, .ok, .err⟩ rfl).2.2.2) rfl,
    h5.1, h5.2, ?_, h7.1, h7.2, h8⟩
  exact c2_failure_policy.2.2.2.2.2.1
    ⟨[⟨1, some ⟨.err, true, .ok, .ok⟩⟩, ⟨2, some sAllOk⟩], 0, []⟩
    [] [⟨2, some sAllOk⟩] ⟨1, some ⟨.err, true, .ok, .ok⟩⟩
    ⟨.err, true, .ok, .ok⟩ rfl rfl rfl rfl
    (by intro t ht
        simp only [List.mem_singleton] at ht
        subst ht
        exact ⟨sAllOk, rfl, rfl⟩)
    (by simp)

end VectorFanout
